import Mathlib

/-!
Verification development for the holiday planner application.

The model below is a shallow embedding of the repository's Python sources:
`utils/holiday_loader.py`, `utils/storage.py`, `gui/calendar_widget.py`
and `gui/holiday_planner.py`.  Python `datetime` values are modelled by the
`DateTime` structure (calendar date plus time of day); `strftime("%Y-%m-%d")`
and `strptime(s, "%Y-%m-%d")` are modelled over lists of characters; Python
sets of datetimes become `Finset DateTime`; JSON dictionaries become
association lists, and a dictionary key that may be absent becomes an
`Option` field.
-/

/-- A proleptic-Gregorian calendar date, as carried by Python `datetime`
(year is an integer; `datetime` itself only admits years 1..9999, captured
by `ValidDate` below). -/
structure Date where
  year : Int
  month : Nat
  day : Nat
deriving DecidableEq, Repr

/-- Model of a Python `datetime` value: a calendar date plus a time of day.
`strptime` with a date-only format yields midnight (all time fields zero). -/
structure DateTime where
  date : Date
  hour : Nat
  minute : Nat
  second : Nat
deriving DecidableEq, Repr

/-- The midnight `datetime` on a given calendar date, as produced by
`datetime(year, month, day)` and by `strptime(s, "%Y-%m-%d")`. -/
def midnight (d : Date) : DateTime := ⟨d, 0, 0, 0⟩

/-- Gregorian leap-year rule, as implemented by Python's `calendar`/`datetime`. -/
def isLeapYear (y : Int) : Bool := y % 4 == 0 && (y % 100 != 0 || y % 400 == 0)

/-- Number of days in a month.  `calendar_widget._create_month` computes this
as `(datetime(year, month + 1, 1) - timedelta(days=1)).day` (31 for December);
the result is the standard month length, which is what we model. -/
def daysInMonth (y : Int) (m : Nat) : Nat :=
  if m = 2 then (if isLeapYear y then 29 else 28)
  else if m = 4 ∨ m = 6 ∨ m = 9 ∨ m = 11 then 30
  else 31

/-- Days in the months strictly before month `m` of year `y`. -/
def daysBeforeMonth (y : Int) (m : Nat) : Nat :=
  (List.range (m - 1)).foldl (fun acc i => acc + daysInMonth y (i + 1)) 0

/-- Python `date.toordinal()`: day count with 0001-01-01 ↦ 1
(proleptic Gregorian). -/
def toOrdinal (d : Date) : Nat :=
  let n := d.year.toNat
  365 * (n - 1) + ((n - 1) / 4 - (n - 1) / 100 + (n - 1) / 400)
    + daysBeforeMonth d.year d.month + d.day

/-- Python `datetime.weekday()`: Monday = 0 .. Sunday = 6.
0001-01-01 (ordinal 1) is a Monday. -/
def weekday (d : Date) : Nat := (toOrdinal d + 6) % 7

/-- The dates Python `datetime` can represent (and for which the
`"%Y-%m-%d"` round trip is meaningful): years 1..9999, valid month and day. -/
def ValidDate (d : Date) : Prop :=
  1 ≤ d.year ∧ d.year ≤ 9999 ∧ 1 ≤ d.month ∧ d.month ≤ 12 ∧
    1 ≤ d.day ∧ d.day ≤ daysInMonth d.year d.month

instance (d : Date) : Decidable (ValidDate d) := by
  unfold ValidDate; infer_instance

/-- The ASCII character of a decimal digit. -/
def dchar (d : Nat) : Char := Char.ofNat (48 + d)

/-- Numeric value of an ASCII digit character. -/
def digitVal (c : Char) : Nat := c.toNat - 48

/-- Value of a string of decimal digits, most significant first
(the numeric conversion performed by `strptime`). -/
def charsToNat (cs : List Char) : Nat := cs.foldl (fun a c => a * 10 + digitVal c) 0

/-- Decimal digit characters of `n`, most significant first; the first
argument is structural fuel (any fuel ≥ n computes the digits of `n`). -/
def natCharsAux : Nat → Nat → List Char
  | 0, _ => []
  | _ + 1, 0 => []
  | fuel + 1, n + 1 => natCharsAux fuel ((n + 1) / 10) ++ [dchar ((n + 1) % 10)]

/-- Decimal representation of `n` as digit characters (Python `str(n)` for
a nonnegative integer). -/
def natChars (n : Nat) : List Char := if n = 0 then ['0'] else natCharsAux n n

/-- Left-pad with ASCII zeros to width `w`, as `strftime` field padding does. -/
def padZeros (w : Nat) (cs : List Char) : List Char :=
  List.replicate (w - cs.length) '0' ++ cs

/-- Python `str` on an integer (used for the year keys of the holiday
configuration: `str(year)`). -/
def intStr (i : Int) : String :=
  if i < 0 then ⟨'-' :: natChars (-i).toNat⟩ else ⟨natChars i.toNat⟩

/-- Model of `d.strftime("%Y-%m-%d")`: zero-padded year (4), month (2) and
day (2) joined by dashes. -/
def formatDate (d : Date) : String :=
  ⟨padZeros 4 (natChars d.year.toNat) ++
    '-' :: (padZeros 2 (natChars d.month) ++ '-' :: padZeros 2 (natChars d.day))⟩

/-- Split a character list on every dash (the field separation `strptime`
performs against the pattern `"%Y-%m-%d"`). -/
def splitDash (cs : List Char) : List (List Char) :=
  match cs with
  | [] => [[]]
  | c :: rest =>
    let r := splitDash rest
    if c = '-' then [] :: r
    else
      match r with
      | [] => [[c]]
      | g :: gs => (c :: g) :: gs

/-- Model of `datetime.strptime(s, "%Y-%m-%d")`: three dash-separated digit
groups (1-4 digits for `%Y`, 1-2 for `%m` and `%d`), with the year in
1..9999, the month in 1..12 and the day valid for that month; any mismatch
raises `ValueError` in Python, modelled as `none`.  On success the result is
the midnight `datetime` of the parsed date. -/
def parseDate (s : String) : Option DateTime :=
  match splitDash s.toList with
  | [ys, ms, ds] =>
    if 1 ≤ ys.length && ys.length ≤ 4 && ys.all Char.isDigit &&
       1 ≤ ms.length && ms.length ≤ 2 && ms.all Char.isDigit &&
       1 ≤ ds.length && ds.length ≤ 2 && ds.all Char.isDigit then
      let y := charsToNat ys
      let m := charsToNat ms
      let d := charsToNat ds
      if 1 ≤ y && y ≤ 9999 && 1 ≤ m && m ≤ 12 && 1 ≤ d && d ≤ daysInMonth (y : Int) m then
        some (midnight ⟨(y : Int), m, d⟩)
      else none
    else none
  | _ => none

example : weekday ⟨2025, 10, 12⟩ = 6 := by decide
example : weekday ⟨2025, 1, 1⟩ = 2 := by decide
example : weekday ⟨2025, 12, 25⟩ = 3 := by decide
example : weekday ⟨2024, 2, 29⟩ = 3 := by decide
example : parseDate "2025-12-25" = some (midnight ⟨2025, 12, 25⟩) := by decide
example : parseDate "2025-02-30" = none := by decide
example : parseDate "2025-13-01" = none := by decide
example : parseDate "not-a-date" = none := by decide
example : formatDate ⟨2025, 3, 7⟩ = "2025-03-07" := by decide
example : parseDate (formatDate ⟨987, 2, 28⟩) = some (midnight ⟨987, 2, 28⟩) := by decide

/-! ### Decimal formatting and parsing round trip -/

theorem digitVal_dchar {d : Nat} (h : d < 10) : digitVal (dchar d) = d := by
  interval_cases d <;> decide

theorem dchar_isDigit {d : Nat} (h : d < 10) : (dchar d).isDigit = true := by
  interval_cases d <;> decide

theorem dchar_ne_dash {d : Nat} (h : d < 10) : dchar d ≠ '-' := by
  interval_cases d <;> decide

theorem natCharsAux_eq_digits (fuel n : Nat) (h : n ≤ fuel) :
    natCharsAux fuel n = ((Nat.digits 10 n).map dchar).reverse := by
  induction fuel generalizing n with
  | zero =>
    interval_cases n
    simp [natCharsAux]
  | succ f ih =>
    match n with
    | 0 => simp [natCharsAux]
    | k + 1 =>
      have hdiv : (k + 1) / 10 < k + 1 := Nat.div_lt_self (Nat.succ_pos k) (by norm_num)
      rw [natCharsAux, Nat.digits_def' (by norm_num : 1 < 10) (Nat.succ_pos k),
        List.map_cons, List.reverse_cons, ih ((k + 1) / 10) (by omega)]

theorem natChars_eq_digits {n : Nat} (h : n ≠ 0) :
    natChars n = ((Nat.digits 10 n).map dchar).reverse := by
  rw [natChars, if_neg h, natCharsAux_eq_digits n n le_rfl]

theorem natChars_mem_isDigit {n : Nat} {c : Char} (hc : c ∈ natChars n) :
    c.isDigit = true := by
  by_cases h : n = 0
  · subst h; simp [natChars] at hc; subst hc; decide
  · rw [natChars_eq_digits h] at hc
    simp only [List.mem_reverse, List.mem_map] at hc
    obtain ⟨d, hd, rfl⟩ := hc
    exact dchar_isDigit (Nat.digits_lt_base (by norm_num) hd)

theorem natChars_mem_ne_dash {n : Nat} {c : Char} (hc : c ∈ natChars n) :
    c ≠ '-' := by
  by_cases h : n = 0
  · subst h; simp [natChars] at hc; subst hc; decide
  · rw [natChars_eq_digits h] at hc
    simp only [List.mem_reverse, List.mem_map] at hc
    obtain ⟨d, hd, rfl⟩ := hc
    exact dchar_ne_dash (Nat.digits_lt_base (by norm_num) hd)

theorem natChars_ne_nil (n : Nat) : natChars n ≠ [] := by
  by_cases h : n = 0
  · subst h; simp [natChars]
  · rw [natChars_eq_digits h]
    simp [Nat.digits_ne_nil_iff_ne_zero, h]

theorem natChars_length_le {n k : Nat} (hk : 0 < k) (h : n < 10 ^ k) :
    (natChars n).length ≤ k := by
  by_cases h0 : n = 0
  · subst h0; simp [natChars]; omega
  · rw [natChars_eq_digits h0]
    simp only [List.length_reverse, List.length_map]
    rw [Nat.digits_len 10 n (by norm_num) h0]
    have := Nat.log_lt_of_lt_pow h0 h
    omega

theorem foldl_digits_reverse (ds : List Nat) (hds : ∀ x ∈ ds, x < 10) (a : Nat) :
    List.foldl (fun acc c => acc * 10 + digitVal c) a ((ds.map dchar).reverse) =
      a * 10 ^ ds.length + Nat.ofDigits 10 ds := by
  induction ds generalizing a with
  | nil => simp
  | cons d rest ih =>
    simp only [List.map_cons, List.reverse_cons, List.foldl_append, List.foldl_cons,
      List.foldl_nil]
    rw [ih (fun x hx => hds x (List.mem_cons_of_mem d hx)) a,
      digitVal_dchar (hds d (List.mem_cons_self d rest)), Nat.ofDigits_cons,
      List.length_cons]
    ring

theorem charsToNat_natChars (n : Nat) : charsToNat (natChars n) = n := by
  by_cases h : n = 0
  · subst h; decide
  · rw [natChars_eq_digits h, charsToNat,
      foldl_digits_reverse _ (fun x hx => Nat.digits_lt_base (by norm_num) hx) 0,
      Nat.zero_mul, Nat.zero_add, Nat.ofDigits_digits]

theorem charsToNat_padZeros (w : Nat) (cs : List Char) :
    charsToNat (padZeros w cs) = charsToNat cs := by
  rw [padZeros, charsToNat, charsToNat, List.foldl_append]
  congr 1
  induction (w - cs.length) with
  | zero => rfl
  | succ k ih => simpa [List.replicate_succ, digitVal] using ih

theorem padZeros_length {w : Nat} {cs : List Char} (h : cs.length ≤ w) :
    (padZeros w cs).length = w := by
  simp [padZeros]
  omega

theorem padZeros_mem {w : Nat} {cs : List Char} {c : Char} (hc : c ∈ padZeros w cs) :
    c = '0' ∨ c ∈ cs := by
  rcases List.mem_append.mp hc with h | h
  · exact Or.inl (List.eq_of_mem_replicate h)
  · exact Or.inr h

theorem splitDash_no_dash {a : List Char} (h : ∀ c ∈ a, c ≠ '-') :
    splitDash a = [a] := by
  induction a with
  | nil => rfl
  | cons c rest ih =>
    rw [splitDash]
    simp only [if_neg (h c (List.mem_cons_self c rest))]
    rw [ih (fun x hx => h x (List.mem_cons_of_mem c hx))]

theorem splitDash_append {a : List Char} (r : List Char) (h : ∀ c ∈ a, c ≠ '-') :
    splitDash (a ++ '-' :: r) = a :: splitDash r := by
  induction a with
  | nil => simp [splitDash]
  | cons c rest ih =>
    rw [List.cons_append, splitDash]
    simp only [if_neg (h c (List.mem_cons_self c rest))]
    rw [ih (fun x hx => h x (List.mem_cons_of_mem c hx))]

theorem padZeros_natChars_ne_dash {w n : Nat} : ∀ c ∈ padZeros w (natChars n), c ≠ '-' := by
  intro c hc
  rcases padZeros_mem hc with rfl | hc
  · decide
  · exact natChars_mem_ne_dash hc

theorem padZeros_natChars_isDigit {w n : Nat} :
    ∀ c ∈ padZeros w (natChars n), c.isDigit = true := by
  intro c hc
  rcases padZeros_mem hc with rfl | hc
  · decide
  · exact natChars_mem_isDigit hc

theorem parseDate_formatDate {d : Date} (h : ValidDate d) :
    parseDate (formatDate d) = some (midnight d) := by
  obtain ⟨hy1, hy2, hm1, hm2, hd1, hd2⟩ := h
  have hyy : ((d.year.toNat : Int)) = d.year := Int.toNat_of_nonneg (by omega)
  have hsplit : splitDash (formatDate d).toList =
      [padZeros 4 (natChars d.year.toNat), padZeros 2 (natChars d.month),
        padZeros 2 (natChars d.day)] := by
    show splitDash (padZeros 4 (natChars d.year.toNat) ++
      '-' :: (padZeros 2 (natChars d.month) ++ '-' :: padZeros 2 (natChars d.day))) = _
    rw [splitDash_append _ padZeros_natChars_ne_dash,
      splitDash_append _ padZeros_natChars_ne_dash,
      splitDash_no_dash padZeros_natChars_ne_dash]
  have hyn1 : 1 ≤ d.year.toNat := by omega
  have hyn2 : d.year.toNat ≤ 9999 := by omega
  have hA : (padZeros 4 (natChars d.year.toNat)).length = 4 :=
    padZeros_length (natChars_length_le (by norm_num) (by omega))
  have hB : (padZeros 2 (natChars d.month)).length = 2 :=
    padZeros_length (natChars_length_le (by norm_num) (by omega))
  have hday31 : d.day ≤ 31 := by
    have : daysInMonth d.year d.month ≤ 31 := by
      unfold daysInMonth
      split <;> [split <;> omega; split <;> omega]
    omega
  have hC : (padZeros 2 (natChars d.day)).length = 2 :=
    padZeros_length (natChars_length_le (by norm_num) (by omega))
  rw [parseDate, hsplit]
  simp only [hA, hB, hC, List.all_eq_true.mpr padZeros_natChars_isDigit,
    charsToNat_padZeros, charsToNat_natChars]
  norm_num
  have hsup : d.year ⊔ 0 = d.year := by rw [← Int.ofNat_toNat, hyy]
  rw [hsup]
  exact ⟨⟨⟨⟨⟨⟨hyn1, hy2⟩, hm1⟩, hm2⟩, hd1⟩, hd2⟩, rfl⟩

/-! ### Holiday configuration loader (`utils/holiday_loader.py`) -/

/-- One entry of a year's holiday list in `config/holidays.json`.  The JSON
dictionary may in principle lack the `"date"` or `"name"` key (Python raises
`KeyError`, which the loader catches), so both fields are `Option`s. -/
structure RawHoliday where
  dateStr : Option String
  name : Option String
deriving DecidableEq, Repr

/-- The year map of one region: year-string keys to holiday entry lists. -/
abbrev YearEntries := List (String × List RawHoliday)

/-- The whole parsed configuration: region keys to year maps
(`self.holidays_data` in `HolidayLoader`). -/
abbrev HolidaysData := List (String × YearEntries)

namespace HolidayLoader

/-- `get_available_regions`: `list(self.holidays_data.keys())`. -/
def get_available_regions (data : HolidaysData) : List String := data.map Prod.fst

/-- Python `int(s)` on the well-formed integer literals produced by
`str(year)` (an optional sign followed by decimal digits). -/
def strToInt (s : String) : Int :=
  match s.toList with
  | '-' :: rest => -(charsToNat rest : Int)
  | l => (charsToNat l : Int)

/-- `get_available_years`: `[int(year) for year in self.holidays_data[region].keys()]`,
or `[]` when the region is absent. -/
def get_available_years (data : HolidaysData) (region : String) : List Int :=
  match data.lookup region with
  | none => []
  | some regionData => regionData.map (fun p => strToInt p.fst)

/-- `get_holidays_for_year`: empty set when the region or the year-string key
is absent; otherwise each entry's `"date"` value is parsed with
`strptime("%Y-%m-%d")` and added, and an entry whose key is missing
(`KeyError`) or whose date fails to parse (`ValueError`) is skipped. -/
def get_holidays_for_year (data : HolidaysData) (year : Int) (region : String) :
    Finset DateTime :=
  match data.lookup region with
  | none => ∅
  | some regionData =>
    match regionData.lookup (intStr year) with
    | none => ∅
    | some entries =>
      entries.foldl (fun holidays h =>
        match h.dateStr.bind parseDate with
        | some date => insert date holidays
        | none => holidays) ∅

/-- The scan loop of `get_holiday_name`: first entry whose parsed date has
the requested calendar date; an entry that fails on the `"date"` key or on
parsing is skipped, and a matching entry lacking the `"name"` key raises
`KeyError` inside the `try`, so the loop continues past it too. -/
def find_holiday_name (d : Date) : List RawHoliday → Option String
  | [] => none
  | h :: rest =>
    match h.dateStr.bind parseDate with
    | some holiday_date =>
      if holiday_date.date = d then
        match h.name with
        | some n => some n
        | none => find_holiday_name d rest
      else find_holiday_name d rest
    | none => find_holiday_name d rest

/-- `get_holiday_name`: `None` when the region or the year-string key
(`str(date.year)`) is absent, otherwise the scan `find_holiday_name`. -/
def get_holiday_name (data : HolidaysData) (date : DateTime) (region : String) :
    Option String :=
  match data.lookup region with
  | none => none
  | some regionData =>
    match regionData.lookup (intStr date.date.year) with
    | none => none
    | some entries => find_holiday_name date.date entries

end HolidayLoader

/-! ### Storage manager (`utils/storage.py`) -/

/-- The JSON object held by `data/holidays_status.json`; each key may be
absent, hence the `Option` fields (`data.get(key, default)` in the code). -/
structure StorageJson where
  holidays1 : Option (List String)
  holidays2 : Option (List String)
  previous_year : Option Int
  region : Option String
  last_updated : Option String
deriving DecidableEq, Repr

/-- The storage file as `load_holidays` can encounter it: absent on disk,
present but not readable/parsable as JSON, or parsed to a JSON object. -/
inductive FileState
  | absent
  | malformed
  | ok (data : StorageJson)
deriving DecidableEq, Repr

/-- `strptime` over a list of date strings; `none` as soon as one fails,
modelling the exception that aborts the whole `set(...)` comprehension. -/
def parseAll : List String → Option (List DateTime)
  | [] => some []
  | s :: rest =>
    match parseDate s, parseAll rest with
    | some d, some ds => some (d :: ds)
    | _, _ => none

namespace StorageManager

/-- `save_holidays`: serializes both selection sets with
`d.strftime("%Y-%m-%d")`, plus carryover, region and a timestamp.  Python
iterates each set in an unspecified order, so the model receives that
iteration order as a list (each set element appearing exactly once).  The
model returns the JSON object written on a successful write (`now` stands
for `datetime.now().strftime(...)`). -/
def save_holidays (holidays1 holidays2 : List DateTime) (previous_year : Int)
    (region : String) (now : String) : StorageJson :=
  { holidays1 := some (holidays1.map (fun d => formatDate d.date)),
    holidays2 := some (holidays2.map (fun d => formatDate d.date)),
    previous_year := some previous_year,
    region := some region,
    last_updated := some now }

/-- `load_holidays`: defaults `(set(), set(), 0, None)` when the file is
absent; the whole body is wrapped in `try/except`, so an unreadable file or
any date string that `strptime` rejects also yields the defaults. -/
def load_holidays (file : FileState) :
    Finset DateTime × Finset DateTime × Int × Option String :=
  match file with
  | .absent => (∅, ∅, 0, none)
  | .malformed => (∅, ∅, 0, none)
  | .ok data =>
    match parseAll (data.holidays1.getD []), parseAll (data.holidays2.getD []) with
    | some l1, some l2 => (l1.toFinset, l2.toFinset, data.previous_year.getD 0, data.region)
    | _, _ => (∅, ∅, 0, none)

end StorageManager

/-! ### Planner state and event handlers (`gui/holiday_planner.py`) -/

/-- The mutable planner fields that the claims are about: the two selection
sets, the two taken counters, the allowance constant, the carryover entry
(`previous_year_var`), the selected year (`int(self.year_var.get())`), the
current region and the remembered `initial_region`. -/
structure PlannerState where
  holidays1 : Finset DateTime
  holidays2 : Finset DateTime
  taken_holidays1 : Int
  taken_holidays2 : Int
  total_holidays : Int
  previous_year_var : Int
  year_var : Int
  region_var : String
  initial_region : String
deriving DecidableEq

namespace HolidayPlanner

/-- `toggle_holiday`: only acts when the clicked date's year equals the
selected year; removal always succeeds, addition is refused (with a warning
dialog) when `taken_holidays1 >= total_holidays + previous_year_var`.
Button recoloring and `update_labels` touch no planner field. -/
def toggle_holiday (s : PlannerState) (date : DateTime) : PlannerState :=
  let current_year := s.year_var
  if date.date.year = current_year then
    if date ∈ s.holidays1 then
      { s with holidays1 := s.holidays1.erase date,
               taken_holidays1 := s.taken_holidays1 - 1 }
    else
      let max_days := s.total_holidays + s.previous_year_var
      if s.taken_holidays1 ≥ max_days then s
      else
        { s with holidays1 := insert date s.holidays1,
                 taken_holidays1 := s.taken_holidays1 + 1 }
  else s

/-- `reset_holidays`: after an affirmative confirmation dialog, clears the
current-year selection and zeroes its counter; otherwise returns early. -/
def reset_holidays (confirmed : Bool) (s : PlannerState) : PlannerState :=
  if confirmed then { s with holidays1 := ∅, taken_holidays1 := 0 } else s

/-- `load_holidays` (planner): installs the tuple returned by
`StorageManager.load_holidays`, sets both counters to the set sizes
(`len(...)`), and adopts the saved region only when one was present. -/
def load_holidays (s : PlannerState) (file : FileState) : PlannerState :=
  let r := StorageManager.load_holidays file
  let s1 := { s with holidays1 := r.1,
                     holidays2 := r.2.1,
                     taken_holidays1 := (r.1.card : Int),
                     taken_holidays2 := (r.2.1.card : Int),
                     previous_year_var := r.2.2.1 }
  match r.2.2.2 with
  | some region => { s1 with region_var := region, initial_region := region }
  | none => s1

/-- `on_region_change`: the combobox has already written the new region into
`region_var` when the handler runs.  If any selection exists and the user
cancels the save prompt (`response = none`), the region reverts and nothing
else happens (answering yes additionally writes the file, which touches no
planner field).  Otherwise the sorted available-years list is computed
(falling back to `[CURRENT_YEAR]` when empty), and the selected year is kept
when still listed or else replaced by the first list element. -/
def on_region_change (data : HolidaysData) (current_year_const : Int)
    (response : Option Bool) (s : PlannerState) : PlannerState :=
  let new_region := s.region_var
  if (s.holidays1 ≠ ∅ ∨ s.holidays2 ≠ ∅) ∧ response = none then
    { s with region_var := s.initial_region }
  else
    let years := List.insertionSort (· ≤ ·) (HolidayLoader.get_available_years data new_region)
    let years' := if years = [] then [current_year_const] else years
    let new_year := if s.year_var ∈ years' then s.year_var else years'.headD 0
    { s with initial_region := new_region, year_var := new_year }

end HolidayPlanner

/-! ### Calendar rendering and click wiring (`gui/calendar_widget.py`) -/

/-- The disabling condition of `_create_month`:
`is_weekend or is_public_holiday`, with
`is_weekend = date.weekday() in [5, 6]` and
`is_public_holiday = date in self.public_holidays`. -/
def isBlocked (public_holidays : Finset DateTime) (date : DateTime) : Prop :=
  weekday date.date ∈ [5, 6] ∨ date ∈ public_holidays

instance (phs : Finset DateTime) (d : DateTime) : Decidable (isBlocked phs d) := by
  unfold isBlocked; infer_instance

/-- How `_create_month` renders one day button. -/
inductive DayRender
  | blocked
  | selected
  | available
deriving DecidableEq, Repr

namespace CalendarWidget

/-- The per-day branch of `_create_month` for `date = datetime(year, month, day)`:
a disabled button for weekends/public holidays, a highlighted button for
dates already in the selection set, a plain clickable button otherwise. -/
def renderDay (holidays_set public_holidays : Finset DateTime) (year : Int)
    (month day : Nat) : DayRender :=
  let date := midnight ⟨year, month, day⟩
  if isBlocked public_holidays date then .blocked
  else if date ∈ holidays_set then .selected
  else .available

/-- A user click on a rendered day: `_create_month` attaches the
`_on_day_click` command (which calls `toggle_holiday`) only to non-blocked
buttons, and a `tk.DISABLED` button fires no command at all. -/
def user_click (public_holidays : Finset DateTime) (s : PlannerState)
    (date : DateTime) : PlannerState :=
  if isBlocked public_holidays date then s
  else HolidayPlanner.toggle_holiday s date

end CalendarWidget

/-! ### Claims about the toggle/accounting logic -/

/-- C1: toggling a working day of the active year that is not currently
selected adds it and increments `taken_holidays1` exactly when
`taken_holidays1 < total_holidays + previous_year_var`; when the allowance
is exhausted (in particular when `taken == total + carryover`) the planner
state is left entirely unchanged. -/
theorem toggle_add_respects_allowance (phs : Finset DateTime) (s : PlannerState)
    (date : DateTime) (hyear : date.date.year = s.year_var)
    (hsel : date ∉ s.holidays1) (_hwork : ¬ isBlocked phs date) :
    (s.taken_holidays1 < s.total_holidays + s.previous_year_var →
      HolidayPlanner.toggle_holiday s date =
        { s with holidays1 := insert date s.holidays1,
                 taken_holidays1 := s.taken_holidays1 + 1 }) ∧
    (s.total_holidays + s.previous_year_var ≤ s.taken_holidays1 →
      HolidayPlanner.toggle_holiday s date = s) := by
  unfold HolidayPlanner.toggle_holiday
  rw [if_pos hyear, if_neg hsel]
  constructor
  · intro hlt
    rw [if_neg (by omega)]
  · intro hge
    rw [if_pos (by omega)]

/-- Witness for C1 at a concrete state: with an empty selection and a
1-day allowance the add succeeds. -/
theorem toggle_add_respects_allowance_witness :
    HolidayPlanner.toggle_holiday
        { holidays1 := ∅, holidays2 := ∅, taken_holidays1 := 0, taken_holidays2 := 0,
          total_holidays := 1, previous_year_var := 0, year_var := 2025,
          region_var := "berlin", initial_region := "berlin" }
        (midnight ⟨2025, 1, 2⟩) =
      { holidays1 := insert (midnight ⟨2025, 1, 2⟩) ∅, holidays2 := ∅,
        taken_holidays1 := 0 + 1, taken_holidays2 := 0,
        total_holidays := 1, previous_year_var := 0, year_var := 2025,
        region_var := "berlin", initial_region := "berlin" } :=
  (toggle_add_respects_allowance ∅
    { holidays1 := ∅, holidays2 := ∅, taken_holidays1 := 0, taken_holidays2 := 0,
      total_holidays := 1, previous_year_var := 0, year_var := 2025,
      region_var := "berlin", initial_region := "berlin" }
    (midnight ⟨2025, 1, 2⟩) (by decide) (by decide) (by decide)).1 (by decide)

/-- The accounting invariant of C2: the current-year counter equals the
size of the current-year selection set. -/
def TakenInv (s : PlannerState) : Prop :=
  s.taken_holidays1 = (s.holidays1.card : Int)

instance (s : PlannerState) : Decidable (TakenInv s) := by
  unfold TakenInv; infer_instance

/-- C2: `taken_holidays1 = |holidays1|` holds after loading persisted state
and is preserved by every toggle (add, remove, rejected add, foreign-year
click) and by resetting the year. -/
theorem taken_equals_card :
    (∀ (s : PlannerState) (file : FileState),
      TakenInv (HolidayPlanner.load_holidays s file)) ∧
    (∀ (s : PlannerState) (date : DateTime),
      TakenInv s → TakenInv (HolidayPlanner.toggle_holiday s date)) ∧
    (∀ (s : PlannerState) (confirmed : Bool),
      TakenInv s → TakenInv (HolidayPlanner.reset_holidays confirmed s)) := by
  refine ⟨fun s file => ?_, fun s date h => ?_, fun s confirmed h => ?_⟩
  · unfold HolidayPlanner.load_holidays TakenInv
    cases hr : (StorageManager.load_holidays file).2.2.2 <;> simp [hr]
  · unfold HolidayPlanner.toggle_holiday TakenInv
    by_cases h1 : date.date.year = s.year_var
    · rw [if_pos h1]
      by_cases h2 : date ∈ s.holidays1
      · rw [if_pos h2]
        have hc : 1 ≤ s.holidays1.card := Finset.card_pos.mpr ⟨date, h2⟩
        simp only [Finset.card_erase_of_mem h2]
        unfold TakenInv at h
        omega
      · rw [if_neg h2]
        by_cases h3 : s.taken_holidays1 ≥ s.total_holidays + s.previous_year_var
        · rw [if_pos h3]; exact h
        · rw [if_neg h3]
          simp only [Finset.card_insert_of_not_mem h2]
          unfold TakenInv at h
          omega
    · rw [if_neg h1]; exact h
  · unfold HolidayPlanner.reset_holidays
    cases confirmed
    · simpa using h
    · simp [TakenInv]

/-- Witness for C2: the invariant survives a concrete removal toggle. -/
theorem taken_equals_card_witness :
    TakenInv (HolidayPlanner.toggle_holiday
      { holidays1 := insert (midnight ⟨2025, 1, 2⟩) ∅, holidays2 := ∅,
        taken_holidays1 := 1, taken_holidays2 := 0, total_holidays := 30,
        previous_year_var := 0, year_var := 2025,
        region_var := "berlin", initial_region := "berlin" }
      (midnight ⟨2025, 1, 2⟩)) :=
  taken_equals_card.2.1
    { holidays1 := insert (midnight ⟨2025, 1, 2⟩) ∅, holidays2 := ∅,
      taken_holidays1 := 1, taken_holidays2 := 0, total_holidays := 30,
      previous_year_var := 0, year_var := 2025,
      region_var := "berlin", initial_region := "berlin" }
    (midnight ⟨2025, 1, 2⟩) (by decide)

/-- C5: a click on a `Blocked` date (weekend or public holiday) leaves the
planner state unchanged — the widget wires no command to disabled buttons —
and in particular can never put the date into the selection set. -/
theorem blocked_click_noop (phs : Finset DateTime) (s : PlannerState)
    (date : DateTime) (h : isBlocked phs date) :
    CalendarWidget.user_click phs s date = s ∧
      (date ∉ s.holidays1 → date ∉ (CalendarWidget.user_click phs s date).holidays1) := by
  have hclick : CalendarWidget.user_click phs s date = s := by
    unfold CalendarWidget.user_click
    rw [if_pos h]
  exact ⟨hclick, fun hn => by rw [hclick]; exact hn⟩

/-- Witness for C5: clicking Saturday 2025-01-04 changes nothing. -/
theorem blocked_click_noop_witness :
    CalendarWidget.user_click ∅
        { holidays1 := ∅, holidays2 := ∅, taken_holidays1 := 0, taken_holidays2 := 0,
          total_holidays := 30, previous_year_var := 0, year_var := 2025,
          region_var := "berlin", initial_region := "berlin" }
        (midnight ⟨2025, 1, 4⟩) =
      { holidays1 := ∅, holidays2 := ∅, taken_holidays1 := 0, taken_holidays2 := 0,
        total_holidays := 30, previous_year_var := 0, year_var := 2025,
        region_var := "berlin", initial_region := "berlin" } :=
  (blocked_click_noop ∅
    { holidays1 := ∅, holidays2 := ∅, taken_holidays1 := 0, taken_holidays2 := 0,
      total_holidays := 30, previous_year_var := 0, year_var := 2025,
      region_var := "berlin", initial_region := "berlin" }
    (midnight ⟨2025, 1, 4⟩) (by decide)).1

/-- C10: toggling a date whose calendar year differs from the selected year
leaves every planner field unchanged (`toggle_holiday` only refreshes the
labels in that case). -/
theorem toggle_other_year_noop (s : PlannerState) (date : DateTime)
    (h : date.date.year ≠ s.year_var) :
    HolidayPlanner.toggle_holiday s date = s := by
  unfold HolidayPlanner.toggle_holiday
  rw [if_neg h]

/-- Witness for C10: a 2024 date clicked while 2025 is selected. -/
theorem toggle_other_year_noop_witness :
    HolidayPlanner.toggle_holiday
        { holidays1 := ∅, holidays2 := ∅, taken_holidays1 := 0, taken_holidays2 := 0,
          total_holidays := 30, previous_year_var := 0, year_var := 2025,
          region_var := "berlin", initial_region := "berlin" }
        (midnight ⟨2024, 7, 1⟩) =
      { holidays1 := ∅, holidays2 := ∅, taken_holidays1 := 0, taken_holidays2 := 0,
        total_holidays := 30, previous_year_var := 0, year_var := 2025,
        region_var := "berlin", initial_region := "berlin" } :=
  toggle_other_year_noop
    { holidays1 := ∅, holidays2 := ∅, taken_holidays1 := 0, taken_holidays2 := 0,
      total_holidays := 30, previous_year_var := 0, year_var := 2025,
      region_var := "berlin", initial_region := "berlin" }
    (midnight ⟨2024, 7, 1⟩) (by decide)

/-! ### Claims about rendering and the holiday loader -/

theorem renderDay_eq (hol phs : Finset DateTime) (year : Int) (month day : Nat) :
    CalendarWidget.renderDay hol phs year month day =
      if isBlocked phs (midnight ⟨year, month, day⟩) then .blocked
      else if midnight ⟨year, month, day⟩ ∈ hol then .selected
      else .available := rfl

/-- C4: a day of the rendered year is drawn as a disabled (`Blocked`)
button exactly when its weekday is Saturday or Sunday (Python weekday 5
or 6) or its midnight datetime belongs to the public-holiday set of the
active (year, region). -/
theorem render_blocked_iff (hol phs : Finset DateTime) (year : Int)
    (month day : Nat) :
    CalendarWidget.renderDay hol phs year month day = DayRender.blocked ↔
      (weekday ⟨year, month, day⟩ ∈ [5, 6] ∨ midnight ⟨year, month, day⟩ ∈ phs) := by
  rw [renderDay_eq]
  by_cases hb : isBlocked phs (midnight ⟨year, month, day⟩)
  · rw [if_pos hb]
    exact iff_of_true rfl hb
  · rw [if_neg hb]
    refine iff_of_false ?_ hb
    by_cases hs : midnight ⟨year, month, day⟩ ∈ hol
    · rw [if_pos hs]; simp
    · rw [if_neg hs]; simp

/-- The fold of `get_holidays_for_year` accumulates exactly the entries
whose `"date"` value is present and parses. -/
theorem foldl_insert_parsed (entries : List RawHoliday) (acc : Finset DateTime) :
    entries.foldl (fun holidays h =>
        match h.dateStr.bind parseDate with
        | some date => insert date holidays
        | none => holidays) acc =
      acc ∪ (entries.filterMap (fun h => h.dateStr.bind parseDate)).toFinset := by
  induction entries generalizing acc with
  | nil => simp
  | cons e rest ih =>
    cases hfe : e.dateStr.bind parseDate with
    | none => simp [List.filterMap_cons, hfe, ih]
    | some d =>
      simp only [List.foldl_cons, List.filterMap_cons, hfe, ih, List.toFinset_cons]
      rw [Finset.insert_union, Finset.union_insert]

/-- C6: `get_holidays_for_year` returns the empty set when the region key
or the year key (`str(year)`) is absent, and otherwise the set of exactly
those entries whose `"date"` value is present and parses as `YYYY-MM-DD`
— an entry that fails is skipped while the rest are still collected, and
the function is total (no entry makes the call fail). -/
theorem get_holidays_for_year_spec (data : HolidaysData) (year : Int)
    (region : String) :
    (data.lookup region = none →
      HolidayLoader.get_holidays_for_year data year region = ∅) ∧
    (∀ regionData, data.lookup region = some regionData →
      regionData.lookup (intStr year) = none →
      HolidayLoader.get_holidays_for_year data year region = ∅) ∧
    (∀ regionData entries, data.lookup region = some regionData →
      regionData.lookup (intStr year) = some entries →
      HolidayLoader.get_holidays_for_year data year region =
        (entries.filterMap (fun h => h.dateStr.bind parseDate)).toFinset) := by
  refine ⟨fun hr => ?_, fun regionData hr hy => ?_, fun regionData entries hr hy => ?_⟩
  · unfold HolidayLoader.get_holidays_for_year
    rw [hr]
  · unfold HolidayLoader.get_holidays_for_year
    simp only [hr, hy]
  · unfold HolidayLoader.get_holidays_for_year
    simp only [hr, hy]
    rw [foldl_insert_parsed, Finset.empty_union]

/-- Witness for C6: a concrete config where one entry has a malformed
date, one lacks the `"date"` key, and two parse. -/
theorem get_holidays_for_year_spec_witness :
    HolidayLoader.get_holidays_for_year
        [("berlin", [("2025",
          [⟨some "2025-12-25", some "Christmas Day"⟩,
           ⟨some "bad-date", some "Broken"⟩,
           ⟨none, some "Nameless date"⟩,
           ⟨some "2025-01-01", some "New Year"⟩])])]
        2025 "berlin" =
      ([⟨some "2025-12-25", some "Christmas Day"⟩,
        ⟨some "bad-date", some "Broken"⟩,
        ⟨none, some "Nameless date"⟩,
        ⟨some "2025-01-01", some "New Year"⟩].filterMap
          (fun h : RawHoliday => h.dateStr.bind parseDate)).toFinset :=
  (get_holidays_for_year_spec
      [("berlin", [("2025",
        [⟨some "2025-12-25", some "Christmas Day"⟩,
         ⟨some "bad-date", some "Broken"⟩,
         ⟨none, some "Nameless date"⟩,
         ⟨some "2025-01-01", some "New Year"⟩])])]
      2025 "berlin").2.2
    [("2025",
      [⟨some "2025-12-25", some "Christmas Day"⟩,
       ⟨some "bad-date", some "Broken"⟩,
       ⟨none, some "Nameless date"⟩,
       ⟨some "2025-01-01", some "New Year"⟩])]
    [⟨some "2025-12-25", some "Christmas Day"⟩,
     ⟨some "bad-date", some "Broken"⟩,
     ⟨none, some "Nameless date"⟩,
     ⟨some "2025-01-01", some "New Year"⟩]
    (by decide) (by decide)

/-- The match predicate of `get_holiday_name`: the entry's `"date"` value
parses and its calendar date equals `d` (the `holiday_date.date() == date.date()`
comparison). -/
def entryMatches (d : Date) (e : RawHoliday) : Bool :=
  match e.dateStr.bind parseDate with
  | some holiday_date => holiday_date.date == d
  | none => false

/-- When every entry carries a `"name"` key — the invariant of the config
format — the scan returns the first matching entry's name. -/
theorem find_holiday_name_eq_find (d : Date) (entries : List RawHoliday)
    (h : ∀ e ∈ entries, e.name.isSome = true) :
    HolidayLoader.find_holiday_name d entries =
      (entries.find? (entryMatches d)).bind RawHoliday.name := by
  induction entries with
  | nil => rfl
  | cons e rest ih =>
    have hname := h e (List.mem_cons_self e rest)
    have hrest : ∀ x ∈ rest, x.name.isSome = true :=
      fun x hx => h x (List.mem_cons_of_mem e hx)
    unfold HolidayLoader.find_holiday_name
    rw [List.find?_cons]
    cases hm : e.dateStr.bind parseDate with
    | none =>
      have hfalse : entryMatches d e = false := by unfold entryMatches; rw [hm]
      simp only [hfalse, ih hrest]
    | some hd =>
      by_cases heq : hd.date = d
      · have htrue : entryMatches d e = true := by
          unfold entryMatches; rw [hm]; simp [heq]
        obtain ⟨n, hn⟩ := Option.isSome_iff_exists.mp hname
        simp [heq, htrue, hn]
      · have hfalse : entryMatches d e = false := by
          unfold entryMatches; rw [hm]; simp [heq]
        simp only [if_neg heq, hfalse, ih hrest]

/-- C8: `get_holiday_name` returns `None` when the region or the year key
(`str(date.year)`) is absent; otherwise, for a well-formed entry list
(every entry has a `"name"`), it returns the name of the first entry in
stored order whose date equals the given calendar date — in particular
`None` when no entry matches, and only the first of duplicate dates is
reported. -/
theorem get_holiday_name_spec (data : HolidaysData) (date : DateTime)
    (region : String) :
    (data.lookup region = none →
      HolidayLoader.get_holiday_name data date region = none) ∧
    (∀ regionData, data.lookup region = some regionData →
      regionData.lookup (intStr date.date.year) = none →
      HolidayLoader.get_holiday_name data date region = none) ∧
    (∀ regionData entries, data.lookup region = some regionData →
      regionData.lookup (intStr date.date.year) = some entries →
      (∀ e ∈ entries, e.name.isSome = true) →
      HolidayLoader.get_holiday_name data date region =
        (entries.find? (entryMatches date.date)).bind RawHoliday.name) := by
  refine ⟨fun hr => ?_, fun regionData hr hy => ?_,
    fun regionData entries hr hy hn => ?_⟩
  · unfold HolidayLoader.get_holiday_name
    rw [hr]
  · unfold HolidayLoader.get_holiday_name
    simp only [hr, hy]
  · unfold HolidayLoader.get_holiday_name
    simp only [hr, hy]
    exact find_holiday_name_eq_find date.date entries hn

/-- Witness for C8: duplicate dates — only the first match's name comes
back. -/
theorem get_holiday_name_spec_witness :
    HolidayLoader.get_holiday_name
        [("berlin", [("2025",
          [⟨some "2025-12-25", some "First Christmas"⟩,
           ⟨some "2025-12-25", some "Second Christmas"⟩])])]
        (midnight ⟨2025, 12, 25⟩) "berlin" =
      ([⟨some "2025-12-25", some "First Christmas"⟩,
        ⟨some "2025-12-25", some "Second Christmas"⟩].find?
          (entryMatches ⟨2025, 12, 25⟩)).bind RawHoliday.name :=
  (get_holiday_name_spec
      [("berlin", [("2025",
        [⟨some "2025-12-25", some "First Christmas"⟩,
         ⟨some "2025-12-25", some "Second Christmas"⟩])])]
      (midnight ⟨2025, 12, 25⟩) "berlin").2.2
    [("2025",
      [⟨some "2025-12-25", some "First Christmas"⟩,
       ⟨some "2025-12-25", some "Second Christmas"⟩])]
    [⟨some "2025-12-25", some "First Christmas"⟩,
     ⟨some "2025-12-25", some "Second Christmas"⟩]
    (by decide) (by decide) (by decide)

/-- A single failing date string aborts the whole comprehension. -/
theorem parseAll_eq_none {l : List String} {s : String} (hs : s ∈ l)
    (hp : parseDate s = none) : parseAll l = none := by
  induction l with
  | nil => cases hs
  | cons a rest ih =>
    rcases List.mem_cons.mp hs with rfl | hmem
    · unfold parseAll
      rw [hp]
    · unfold parseAll
      rw [ih hmem]
      cases parseDate a <;> rfl

/-- C7: `StorageManager.load_holidays` is total and returns the defaults
`(set(), set(), 0, None)` whenever the storage file is absent, whenever it
cannot be read or parsed as JSON, and whenever any stored date string of
either slot fails `strptime` — it never propagates an exception. -/
theorem load_holidays_defaults :
    StorageManager.load_holidays .absent =
      ((∅ : Finset DateTime), (∅ : Finset DateTime), (0 : Int), (none : Option String)) ∧
    StorageManager.load_holidays .malformed =
      ((∅ : Finset DateTime), (∅ : Finset DateTime), (0 : Int), (none : Option String)) ∧
    (∀ (data : StorageJson) (s : String), s ∈ data.holidays1.getD [] →
      parseDate s = none →
      StorageManager.load_holidays (.ok data) = (∅, ∅, 0, none)) ∧
    (∀ (data : StorageJson) (s : String), s ∈ data.holidays2.getD [] →
      parseDate s = none →
      StorageManager.load_holidays (.ok data) = (∅, ∅, 0, none)) := by
  refine ⟨rfl, rfl, fun data s hs hp => ?_, fun data s hs hp => ?_⟩
  · simp only [StorageManager.load_holidays, parseAll_eq_none hs hp]
  · simp only [StorageManager.load_holidays, parseAll_eq_none hs hp]
    cases parseAll (data.holidays1.getD []) <;> rfl

/-- Witness for C7: a file whose first slot holds an unparsable date. -/
theorem load_holidays_defaults_witness :
    StorageManager.load_holidays
        (.ok { holidays1 := some ["garbage"], holidays2 := some [],
               previous_year := some 3, region := some "berlin",
               last_updated := none }) =
      ((∅ : Finset DateTime), (∅ : Finset DateTime), (0 : Int), (none : Option String)) :=
  load_holidays_defaults.2.2.1
    { holidays1 := some ["garbage"], holidays2 := some [],
      previous_year := some 3, region := some "berlin", last_updated := none }
    "garbage" (by decide) (by decide)

/-- The non-cancel path of `on_region_change`, written out. -/
theorem on_region_change_eq (data : HolidaysData) (cy : Int)
    (response : Option Bool) (s : PlannerState)
    (hproceed : ¬((s.holidays1 ≠ ∅ ∨ s.holidays2 ≠ ∅) ∧ response = none)) :
    HolidayPlanner.on_region_change data cy response s =
      { s with initial_region := s.region_var,
               year_var :=
                 if s.year_var ∈ (if List.insertionSort (· ≤ ·)
                      (HolidayLoader.get_available_years data s.region_var) = []
                    then [cy]
                    else List.insertionSort (· ≤ ·)
                      (HolidayLoader.get_available_years data s.region_var))
                 then s.year_var
                 else (if List.insertionSort (· ≤ ·)
                      (HolidayLoader.get_available_years data s.region_var) = []
                    then [cy]
                    else List.insertionSort (· ≤ ·)
                      (HolidayLoader.get_available_years data s.region_var)).headD 0 } := by
  unfold HolidayPlanner.on_region_change
  rw [if_neg hproceed]

/-- C9: when the region change proceeds and the new region has at least one
configured year, the selected year is kept if it is among the new region's
available years, and otherwise falls back to the first element of the
sorted available-years list, which is their minimum. -/
theorem on_region_change_year_fallback (data : HolidaysData) (cy : Int)
    (response : Option Bool) (s : PlannerState)
    (hproceed : ¬((s.holidays1 ≠ ∅ ∨ s.holidays2 ≠ ∅) ∧ response = none))
    (hne : HolidayLoader.get_available_years data s.region_var ≠ []) :
    (s.year_var ∈ HolidayLoader.get_available_years data s.region_var →
      (HolidayPlanner.on_region_change data cy response s).year_var = s.year_var) ∧
    (s.year_var ∉ HolidayLoader.get_available_years data s.region_var →
      (HolidayPlanner.on_region_change data cy response s).year_var ∈
          HolidayLoader.get_available_years data s.region_var ∧
        ∀ y ∈ HolidayLoader.get_available_years data s.region_var,
          (HolidayPlanner.on_region_change data cy response s).year_var ≤ y) := by
  have hsne : List.insertionSort (· ≤ ·)
      (HolidayLoader.get_available_years data s.region_var) ≠ [] := by
    intro h0
    apply hne
    have hperm := List.perm_insertionSort (· ≤ ·)
      (HolidayLoader.get_available_years data s.region_var)
    rw [h0] at hperm
    exact (List.Perm.nil_eq hperm).symm
  rw [on_region_change_eq data cy response s hproceed]
  simp only [if_neg hsne]
  constructor
  · intro hmem
    rw [if_pos ((List.mem_insertionSort _).mpr hmem)]
  · intro hnmem
    rw [if_neg (fun hc => hnmem ((List.mem_insertionSort _).mp hc))]
    obtain ⟨a, rest, hcons⟩ := List.exists_cons_of_ne_nil hsne
    have hsorted := List.sorted_insertionSort (· ≤ ·)
      (HolidayLoader.get_available_years data s.region_var)
    rw [hcons] at hsorted
    rw [hcons]
    constructor
    · exact (List.mem_insertionSort _).mp (hcons ▸ List.mem_cons_self a rest)
    · intro y hy
      have hy' : y ∈ a :: rest := hcons ▸ (List.mem_insertionSort _).mpr hy
      rcases List.mem_cons.mp hy' with rfl | hy''
      · exact le_refl y
      · exact List.rel_of_sorted_cons hsorted y hy''

/-- Witness for C9: region with years {2024, 2025}, selected year 2023 —
the selected year falls back to 2024, the smallest available year. -/
theorem on_region_change_year_fallback_witness :
    ¬((2023 : Int) ∈ HolidayLoader.get_available_years
        [("berlin", [("2025", []), ("2024", [])])] "berlin") ∧
    (HolidayPlanner.on_region_change [("berlin", [("2025", []), ("2024", [])])] 2025 (some false)
        { holidays1 := ∅, holidays2 := ∅, taken_holidays1 := 0, taken_holidays2 := 0,
          total_holidays := 30, previous_year_var := 0, year_var := 2023,
          region_var := "berlin", initial_region := "bavaria" }).year_var ∈
      HolidayLoader.get_available_years
        [("berlin", [("2025", []), ("2024", [])])] "berlin" :=
  ⟨by decide,
    ((on_region_change_year_fallback [("berlin", [("2025", []), ("2024", [])])] 2025 (some false)
        { holidays1 := ∅, holidays2 := ∅, taken_holidays1 := 0, taken_holidays2 := 0,
          total_holidays := 30, previous_year_var := 0, year_var := 2023,
          region_var := "berlin", initial_region := "bavaria" }
        (by decide) (by decide)).2 (by decide)).1⟩

/-- Formatting every date of a list and parsing the results back succeeds
and yields the midnights of the original calendar dates. -/
theorem parseAll_map_format (l : List DateTime) (h : ∀ d ∈ l, ValidDate d.date) :
    parseAll (l.map (fun d => formatDate d.date)) =
      some (l.map (fun d => midnight d.date)) := by
  induction l with
  | nil => rfl
  | cons d rest ih =>
    simp only [List.map_cons]
    unfold parseAll
    rw [parseDate_formatDate (h d (List.mem_cons_self d rest)),
      ih (fun x hx => h x (List.mem_cons_of_mem d hx))]

/-- Replacing every datetime by the midnight of its date does not change
the set of calendar dates. -/
theorem toFinset_map_midnight_image (l : List DateTime) :
    ((l.map (fun d => midnight d.date)).toFinset).image DateTime.date =
      l.toFinset.image DateTime.date := by
  ext x
  simp only [Finset.mem_image, List.mem_toFinset, List.mem_map]
  constructor
  · rintro ⟨a, ⟨b, hb, rfl⟩, rfl⟩
    exact ⟨b, hb, rfl⟩
  · rintro ⟨b, hb, rfl⟩
    exact ⟨midnight b.date, ⟨b, hb, rfl⟩, rfl⟩

/-- C3: loading immediately after saving returns the same selection state,
carryover and region — the selection sets compared by calendar-date
equality (time-of-day is dropped by the `"%Y-%m-%d"` serialization).
`l1`/`l2` are the orders in which Python iterates the two sets `S1`/`S2`
during `save_holidays`. -/
theorem save_load_round_trip (S1 S2 : Finset DateTime) (l1 l2 : List DateTime)
    (hl1 : l1.toFinset = S1) (hl2 : l2.toFinset = S2)
    (h1 : ∀ d ∈ l1, ValidDate d.date) (h2 : ∀ d ∈ l2, ValidDate d.date)
    (carryover : Int) (region now : String) :
    (StorageManager.load_holidays
        (.ok (StorageManager.save_holidays l1 l2 carryover region now))).1.image
        DateTime.date = S1.image DateTime.date ∧
    (StorageManager.load_holidays
        (.ok (StorageManager.save_holidays l1 l2 carryover region now))).2.1.image
        DateTime.date = S2.image DateTime.date ∧
    (StorageManager.load_holidays
        (.ok (StorageManager.save_holidays l1 l2 carryover region now))).2.2.1
        = carryover ∧
    (StorageManager.load_holidays
        (.ok (StorageManager.save_holidays l1 l2 carryover region now))).2.2.2
        = some region := by
  subst hl1
  subst hl2
  have hload : StorageManager.load_holidays
      (.ok (StorageManager.save_holidays l1 l2 carryover region now)) =
      ((l1.map (fun d => midnight d.date)).toFinset,
        (l2.map (fun d => midnight d.date)).toFinset, carryover, some region) := by
    simp only [StorageManager.load_holidays, StorageManager.save_holidays,
      Option.getD_some, parseAll_map_format l1 h1, parseAll_map_format l2 h2]
  rw [hload]
  exact ⟨toFinset_map_midnight_image l1, toFinset_map_midnight_image l2, rfl, rfl⟩

/-- Witness for C3: a one-element selection carrying a nonzero time of day
survives the round trip up to calendar-date equality. -/
theorem save_load_round_trip_witness :
    (StorageManager.load_holidays
        (.ok (StorageManager.save_holidays [⟨⟨2025, 3, 7⟩, 14, 30, 0⟩] []
          5 "berlin" "2025-10-12 09:00:00"))).1.image DateTime.date =
      ([⟨⟨2025, 3, 7⟩, 14, 30, 0⟩] : List DateTime).toFinset.image DateTime.date :=
  (save_load_round_trip ([⟨⟨2025, 3, 7⟩, 14, 30, 0⟩] : List DateTime).toFinset
    (([] : List DateTime).toFinset) [⟨⟨2025, 3, 7⟩, 14, 30, 0⟩] []
    rfl rfl (by decide) (by decide) 5 "berlin" "2025-10-12 09:00:00").1
